import Mathlib

/-!
# Verification of the VESPR Cardano MCP resilient API client

Shallow embedding of the request layer of `vespr-wallet/cardano_mcp`:
the typed error taxonomy (`src/types/errors.ts`, `src/api/client.ts`),
the single-attempt wallet-detail fetch with its response coercion
(`fetchWalletDetailedOnce` in `src/api/client.ts`), the retry
orchestrator (`withRetry` in `src/api/client.ts`, mirrored by
`FetchApiClient.request`), the zod response schemas
(`src/types/api/schemas.ts`), the spot-price repository cache
(`VesprApiRepository.getAdaSpotPrice`), the unit-conversion utilities
(`src/utils/cardano.ts`), the wallet-balance tool transformation
(`src/tools/getWalletBalance.ts`) and the address format check
(`src/utils/validation.ts`).

JavaScript values that can flow through these functions are modelled by
an explicit `Json` type (JSON has no `undefined`; a missing object
property is modelled as `Option.none`). JavaScript exceptions are
modelled by `Except`; the two exception kinds the embedded code can
raise are `VesprApiError` (the typed API error) and `TypeError`
(property access on `null`).
-/

/-- A JSON value, as produced by `response.json()`. Numbers are modelled
as integers: every numeric field the embedded code inspects (`decimals`)
is integral in the API contract (`z.number().int()`). -/
inductive Json where
  | null
  | bool (b : Bool)
  | num (n : Int)
  | str (s : String)
  | arr (elems : List Json)
  | obj (fields : List (String × Json))

/-- The two JavaScript exception kinds raised by the embedded code:
`VesprApiError {message, statusCode?, originalError?}` from
`src/types/errors.ts` / `src/api/client.ts` (the `hasCause` flag records
whether `originalError` was supplied), and a raw `TypeError` as raised
by property access on `null`. -/
inductive JsErr where
  | vesprApiError (message : String) (statusCode : Option Nat) (hasCause : Bool)
  | typeError (message : String)
deriving DecidableEq

/-- JavaScript property access `o.k`: throws `TypeError` when the
receiver is `null`, returns the property for objects (`undefined`,
i.e. `none`, when absent) and `undefined` for other primitives (none of
the accessed names is a built-in property of those primitives). -/
def getProp (o : Json) (k : String) : Except JsErr (Option Json) :=
  match o with
  | Json.null => Except.error (JsErr.typeError "Cannot read properties of null")
  | Json.obj fields => Except.ok (fields.lookup k)
  | _ => Except.ok none

mutual

/-- JavaScript `String(v)` on a JSON value. -/
def jsStringOfJson : Json → String
  | Json.null => "null"
  | Json.bool b => cond b "true" "false"
  | Json.num n => toString n
  | Json.str s => s
  | Json.arr elems => jsArrJoin elems
  | Json.obj _ => "[object Object]"

/-- JavaScript `Array.prototype.toString`: elements joined with commas;
`null` elements render as the empty string. -/
def jsArrJoin : List Json → String
  | [] => ""
  | [Json.null] => ""
  | [j] => jsStringOfJson j
  | Json.null :: tail => "," ++ jsArrJoin tail
  | j :: tail => jsStringOfJson j ++ "," ++ jsArrJoin tail

end

/-- JavaScript `String(v ?? d)` where `v` is a possibly-absent property
value and `d` is a string literal default: nullish values (`undefined`,
i.e. `none`, and `null`) take the default. -/
def nullishCoalesceString (v : Option Json) (d : String) : String :=
  match v with
  | none => d
  | some Json.null => d
  | some j => jsStringOfJson j

/-- `getErrorMessageForStatus` from `src/types/errors.ts` /
`src/api/client.ts`. -/
def getErrorMessageForStatus (statusCode : Nat) : String :=
  match statusCode with
  | 400 => "Invalid wallet address format."
  | 404 => "Wallet not found. Verify the address is correct."
  | 429 => "Rate limited by VESPR API. Please wait before retrying."
  | 500 => "VESPR API is temporarily unavailable. Try again later."
  | 502 => "VESPR API is temporarily unavailable. Try again later."
  | 503 => "VESPR API is temporarily unavailable. Try again later."
  | 504 => "VESPR API is temporarily unavailable. Try again later."
  | s => "VESPR API returned an error (status " ++ toString s ++ ")."

/-- `isRetryableError` from `src/api/client.ts` (identical in
`FetchApiClient.isRetryableError`): `error instanceof VesprApiError &&
error.statusCode` (JavaScript truthiness: a status of `0` is falsy)
`&& (statusCode >= 500 || statusCode === 429)`. -/
def isRetryableError (e : JsErr) : Bool :=
  match e with
  | JsErr.vesprApiError _ (some s) _ => (s != 0) && (decide (500 ≤ s) || s == 429)
  | _ => false

/-- `TokenInfo` from `src/api/client.ts`: the shape the legacy coercion
builds for each entry of the `tokens` array. -/
structure TokenInfo where
  policy : String
  hex_asset_name : String
  name : String
  ticker : Option String
  quantity : String
  decimals : Int
deriving DecidableEq

/-- `WalletDetailedResponse` from `src/api/client.ts`. The `handles`
field is declared `string[]` in the source but the coercion
`Array.isArray(rawResult.handles) ? rawResult.handles : []` performs no
element validation, so the runtime value is the raw JSON array. -/
structure WalletDetailedResponse where
  lovelace : String
  rewards_lovelace : String
  handles : List Json
  tokens : List TokenInfo

/-- One entry of the legacy `tokens` coercion
(`src/api/client.ts`, lines 208-215): each property of the array
element `t` is read (a `TypeError` if `t` is `null`) and coerced with
the defaults of the source. -/
def coerceToken (t : Json) : Except JsErr TokenInfo :=
  match getProp t "policy", getProp t "hex_asset_name", getProp t "name",
        getProp t "ticker", getProp t "quantity", getProp t "decimals" with
  | Except.ok policy, Except.ok hex, Except.ok name, Except.ok ticker,
    Except.ok quantity, Except.ok decimals =>
      Except.ok {
        policy := nullishCoalesceString policy ""
        hex_asset_name := nullishCoalesceString hex ""
        name := nullishCoalesceString name ""
        ticker := match ticker with
          | none => none
          | some Json.null => none
          | some j => some (jsStringOfJson j)
        quantity := nullishCoalesceString quantity "0"
        decimals := match decimals with
          | some (Json.num n) => n
          | _ => 0 }
  | Except.error e, _, _, _, _, _ => Except.error e
  | _, Except.error e, _, _, _, _ => Except.error e
  | _, _, Except.error e, _, _, _ => Except.error e
  | _, _, _, Except.error e, _, _ => Except.error e
  | _, _, _, _, Except.error e, _ => Except.error e
  | _, _, _, _, _, Except.error e => Except.error e

/-- The field-extraction step of `fetchWalletDetailedOnce`
(`src/api/client.ts`, lines 201-217), applied to the parsed body
`data`. Property access on a `null` body, or on a `null` element of a
`tokens` array, raises a raw `TypeError` (not a `VesprApiError`). -/
def coerceWalletDetailed (data : Json) : Except JsErr WalletDetailedResponse :=
  match getProp data "lovelace", getProp data "rewards_lovelace",
        getProp data "handles", getProp data "tokens" with
  | Except.ok lov, Except.ok rew, Except.ok hnd, Except.ok tok =>
      match (match tok with
             | some (Json.arr elems) => elems.mapM coerceToken
             | _ => Except.ok []) with
      | Except.ok tokens =>
          Except.ok {
            lovelace := nullishCoalesceString lov "0"
            rewards_lovelace := nullishCoalesceString rew "0"
            handles := match hnd with
              | some (Json.arr elems) => elems
              | _ => []
            tokens := tokens }
      | Except.error e => Except.error e
  | Except.error e, _, _, _ => Except.error e
  | _, Except.error e, _, _ => Except.error e
  | _, _, Except.error e, _ => Except.error e
  | _, _, _, Except.error e => Except.error e

/-- Outcome of the single network round trip inside
`fetchWalletDetailedOnce`: the `fetch` call threw an `AbortError`
(timeout) or another error (network failure), or a response arrived
with a non-2xx status, an unparseable body, or a parsed JSON body. -/
inductive TransportOutcome where
  | abortError
  | networkError
  | httpError (status : Nat)
  | jsonParseError
  | okJson (body : Json)

/-- `fetchWalletDetailedOnce` from `src/api/client.ts` (lines 125-226)
as a function of the transport outcome: each failure path constructs a
`VesprApiError`, and a parsed body goes through the field extraction
(which can itself throw a raw `TypeError`). -/
def fetchWalletDetailedOnce (outcome : TransportOutcome) :
    Except JsErr WalletDetailedResponse :=
  match outcome with
  | TransportOutcome.abortError =>
      Except.error (JsErr.vesprApiError "Request timed out. Try again." none true)
  | TransportOutcome.networkError =>
      Except.error (JsErr.vesprApiError
        "Unable to connect to VESPR API. Check your internet connection." none true)
  | TransportOutcome.httpError status =>
      Except.error (JsErr.vesprApiError (getErrorMessageForStatus status) (some status) false)
  | TransportOutcome.jsonParseError =>
      Except.error (JsErr.vesprApiError "Failed to parse API response." none true)
  | TransportOutcome.okJson body => coerceWalletDetailed body

/-- A value thrown out of `withRetry`: either a JavaScript error or the
bare value `undefined` (the `throw lastError` after a loop that never
ran). -/
inductive Thrown where
  | err (e : JsErr)
  | undef
deriving DecidableEq

/-- Observable behaviour of one `withRetry` run: the returned value or
thrown value, the number of invocations of the wrapped operation, and
the backoff delays (ms) waited between attempts, in order. -/
structure RunResult (α : Type) where
  result : Except Thrown α
  invocations : Nat
  delays : List Nat

/-- The loop of `withRetry` (`src/api/client.ts`, lines 93-114;
identical in `FetchApiClient.request`). `remaining` is the number of
loop iterations still allowed, i.e. `maxRetries - attempt`, so the
final-attempt test of the source `attempt === maxRetries - 1` is
`remaining = 1`, i.e. `r = 0` in the `r+1` pattern. `attempt` indexes
the outcome of each invocation and the backoff exponent. `lastError`
models the `lastError` local of the source, set by every `catch`; the
fall-through `throw lastError` is reachable only when the loop runs
zero times, in which case `lastError` is still `undefined`. -/
def withRetryGo {α : Type} (base : Nat) (outcomes : Nat → Except JsErr α) :
    Nat → Nat → Option JsErr → Nat → List Nat → RunResult α
  | 0, _, lastError, invs, delays =>
      { result := Except.error (match lastError with
          | some e => Thrown.err e
          | none => Thrown.undef)
        invocations := invs
        delays := delays }
  | r + 1, attempt, _, invs, delays =>
      match outcomes attempt with
      | Except.ok v => { result := Except.ok v, invocations := invs + 1, delays := delays }
      | Except.error e =>
          if !isRetryableError e || r == 0 then
            { result := Except.error (Thrown.err e), invocations := invs + 1, delays := delays }
          else
            withRetryGo base outcomes r (attempt + 1) (some e) (invs + 1)
              (delays ++ [base * 2 ^ attempt])

/-- `withRetry` from `src/api/client.ts` (lines 87-117): up to
`maxRetries` invocations of the wrapped operation, whose per-invocation
outcomes are given by `outcomes`. -/
def withRetry {α : Type} (maxRetries base : Nat) (outcomes : Nat → Except JsErr α) :
    RunResult α :=
  withRetryGo base outcomes maxRetries 0 none 0 []

/-- `config.maxRetries` from `src/config.ts`:
`Number(process.env.MAX_RETRIES) || 3`. The environment setting is
modelled as `none` when `MAX_RETRIES` is unset or not numeric
(`Number` gives `NaN`, which is falsy) and `some n` for a nonnegative
integer setting; `0` is falsy, so it also falls back to `3`. -/
def configuredMaxRetries (envMaxRetries : Option Nat) : Nat :=
  match envMaxRetries with
  | none => 3
  | some n => if n == 0 then 3 else n

/-- `z.string()` applied to a possibly-absent property: only a present
string passes (a missing field is a `Required` issue). -/
def expectString (v : Option Json) : Option String :=
  match v with
  | some (Json.str s) => some s
  | _ => none

/-- `z.string().nullable()`: a present string or a present `null`
passes (the `null` survives as `none`); a missing field fails. -/
def expectNullableString (v : Option Json) : Option (Option String) :=
  match v with
  | some (Json.str s) => some (some s)
  | some Json.null => some none
  | _ => none

/-- `z.array(z.string())` applied to a possibly-absent property. -/
def expectStringArray (v : Option Json) : Option (List String) :=
  match v with
  | some (Json.arr elems) => elems.mapM (fun j =>
      match j with
      | Json.str s => some s
      | _ => none)
  | _ => none

/-- `z.number().int()` applied to a possibly-absent property
(all modelled JSON numbers are integral, see `Json.num`). -/
def expectInt (v : Option Json) : Option Int :=
  match v with
  | some (Json.num n) => some n
  | _ => none

/-- The validated token shape of `TokenInfoSchema` from
`src/types/api/schemas.ts`. -/
structure Schemas.TokenInfo where
  policy : String
  hex_asset_name : String
  name : String
  ticker : Option String
  quantity : String
  decimals : Int
deriving DecidableEq

/-- The validated response shape of `WalletDetailedResponseSchema` from
`src/types/api/schemas.ts`. -/
structure Schemas.WalletDetailedResponse where
  lovelace : String
  rewards_lovelace : String
  handles : List String
  tokens : List Schemas.TokenInfo
deriving DecidableEq

/-- `TokenInfoSchema.safeParse` from `src/types/api/schemas.ts`: every
declared field is required (zod checks them all; unknown extra fields
are ignored). A failing parse is `none`. -/
def tokenInfoSafeParse (j : Json) : Option Schemas.TokenInfo :=
  match j with
  | Json.obj fields =>
      match expectString (fields.lookup "policy"),
            expectString (fields.lookup "hex_asset_name"),
            expectString (fields.lookup "name"),
            expectNullableString (fields.lookup "ticker"),
            expectString (fields.lookup "quantity"),
            expectInt (fields.lookup "decimals") with
      | some policy, some hex, some name, some ticker, some quantity, some decimals =>
          some ⟨policy, hex, name, ticker, quantity, decimals⟩
      | _, _, _, _, _, _ => none
  | _ => none

/-- `z.array(TokenInfoSchema)` applied to a possibly-absent
property. -/
def tokensArraySafeParse (v : Option Json) : Option (List Schemas.TokenInfo) :=
  match v with
  | some (Json.arr elems) => elems.mapM tokenInfoSafeParse
  | _ => none

/-- `WalletDetailedResponseSchema.safeParse` from
`src/types/api/schemas.ts` (lines 21-28): strict validation, all four
fields required, no defaults. -/
def walletDetailedSafeParse (j : Json) : Option Schemas.WalletDetailedResponse :=
  match j with
  | Json.obj fields =>
      match expectString (fields.lookup "lovelace"),
            expectString (fields.lookup "rewards_lovelace"),
            expectStringArray (fields.lookup "handles"),
            tokensArraySafeParse (fields.lookup "tokens") with
      | some lov, some rew, some hnd, some toks => some ⟨lov, rew, hnd, toks⟩
      | _, _, _, _ => none
  | _ => none

/-- `AdaSpotPriceResponse` from the API schemas
(`AdaSpotPriceResponseSchema`). Currency codes are modelled as strings;
the reference crypto unit `CryptoCurrency.ADA` is the string `"ADA"`. -/
structure AdaSpotPriceResponse where
  currency : String
  spot : String
  spot1hAgo : Option String
  spot24hAgo : Option String
deriving DecidableEq

/-- One entry of the repository field `spotPriceCache`
(`lru-cache` keyed by currency). -/
structure CacheEntry where
  key : String
  value : AdaSpotPriceResponse
  insertedAt : Nat
deriving DecidableEq

/-- `ttl: 1000 * 60 * 10` of the `spotPriceCache` (10 minutes, ms). -/
def spotPriceCacheTtl : Nat := 1000 * 60 * 10

/-- `max: 100` of the `spotPriceCache`. -/
def spotPriceCacheMax : Nat := 100

/-- `LRUCache.get`: a fresh entry (age at most the time-to-live) is
returned and bumped to most-recently-used; a stale entry is deleted and
the lookup misses; an absent key misses. The list is ordered
most-recently-used first. -/
def cacheGet (entries : List CacheEntry) (k : String) (now : Nat) :
    Option AdaSpotPriceResponse × List CacheEntry :=
  match entries.find? (fun e => e.key == k) with
  | some e =>
      if now - e.insertedAt ≤ spotPriceCacheTtl then
        (some e.value, e :: entries.filter (fun x => !(x.key == k)))
      else
        (none, entries.filter (fun x => !(x.key == k)))
  | none => (none, entries)

/-- `LRUCache.set`: replace any entry with the same key, insert at the
most-recently-used position, and evict least-recently-used entries
beyond the capacity. -/
def cacheSet (entries : List CacheEntry) (k : String) (v : AdaSpotPriceResponse)
    (now : Nat) : List CacheEntry :=
  (({ key := k, value := v, insertedAt := now } : CacheEntry)
    :: entries.filter (fun x => !(x.key == k))).take spotPriceCacheMax

/-- Observable behaviour of one `VesprApiRepository.getAdaSpotPrice`
call: the returned response, the cache state afterwards, and how many
times the underlying transport pipeline
(`VesprApiClient.getAdaSpotPrice`) was invoked. -/
structure SpotLookup where
  value : AdaSpotPriceResponse
  cache : List CacheEntry
  transportCalls : Nat

/-- The constant result returned for the reference currency:
`{currency: ADA, spot: "1", spot1hAgo: null, spot24hAgo: null}`. -/
def adaSpotPriceConst : AdaSpotPriceResponse :=
  { currency := "ADA", spot := "1", spot1hAgo := none, spot24hAgo := none }

/-- `VesprApiRepository.getAdaSpotPrice`: the ADA short-circuit, then
the cache lookup, then (on a miss) the transport pipeline followed by
cache population. `fetched` is the validated response the retry
pipeline would return on a successful fetch at this instant. -/
def getAdaSpotPrice (currency : String) (cache : List CacheEntry) (now : Nat)
    (fetched : AdaSpotPriceResponse) : SpotLookup :=
  if currency == "ADA" then
    { value := adaSpotPriceConst, cache := cache, transportCalls := 0 }
  else
    match cacheGet cache currency now with
    | (some cached, cache') => { value := cached, cache := cache', transportCalls := 0 }
    | (none, cache') =>
        { value := fetched
          cache := cacheSet cache' currency fetched now
          transportCalls := 1 }

/-- JavaScript `String.prototype.padStart(n, c)`. -/
def padStart (s : String) (n : Nat) (c : Char) : String :=
  String.mk (List.replicate (n - s.length) c) ++ s

/-- JavaScript `BigInt(s)` on the digit strings the wallet API carries
(nonnegative decimal integers); any other string throws, modelled as
`none`. -/
def parseBigIntDigits (s : String) : Option Nat :=
  if s.data ≠ [] && s.data.all Char.isDigit then
    some (s.data.foldl (fun acc c => acc * 10 + (c.toNat - Char.toNat (Char.ofNat 48))) 0)
  else none

/-- `lovelaceToAda` from `src/utils/cardano.ts` /
`src/tools/getWalletBalance.ts`: BigInt division by 1,000,000 with the
remainder zero-padded to six decimal places. A non-numeric input makes
`BigInt` throw, modelled as `none`. -/
def lovelaceToAda (lovelace : String) : Option String := do
  let value ← parseBigIntDigits lovelace
  let ada := value / 1000000
  let remainder := value % 1000000
  pure (toString ada ++ "." ++ padStart (toString remainder) 6 (Char.ofNat 48))

/-- `formatTokenAmount` from `src/utils/cardano.ts` /
`src/tools/getWalletBalance.ts`: `decimals = 0` returns the quantity
string unchanged (and unparsed); a negative `decimals` makes
`BigInt(10 ** decimals)` throw (fractional argument), modelled as
`none`; otherwise BigInt division by `10 ^ decimals` with the remainder
zero-padded to `decimals` places. -/
def formatTokenAmount (quantity : String) (decimals : Int) : Option String :=
  if decimals == 0 then some quantity
  else
    match decimals with
    | Int.ofNat d => do
        let value ← parseBigIntDigits quantity
        let divisor := 10 ^ d
        let whole := value / divisor
        let remainder := value % divisor
        pure (toString whole ++ "." ++ padStart (toString remainder) d (Char.ofNat 48))
    | Int.negSucc _ => none

/-- One token of the wallet-balance tool output
(`src/tools/getWalletBalance.ts`): name, ticker, amount. -/
structure ToolToken where
  name : String
  ticker : Option String
  amount : String

/-- The structured output of the wallet-balance tool
(`src/tools/getWalletBalance.ts`, lines 88-93). -/
structure ToolOutput where
  ada_balance : String
  staking_rewards : String
  tokens : List ToolToken
  handles : List Json

/-- The success-path transformation of `registerGetWalletBalance`
(`src/tools/getWalletBalance.ts`, lines 76-93): the validated wallet
response is rendered into the tool output. `token.name ||
token.hex_asset_name` falls back on an empty name (JavaScript `||` on
strings). A `BigInt` throw anywhere is modelled as `none`. -/
def buildWalletOutput (w : WalletDetailedResponse) : Option ToolOutput := do
  let adaBalance ← lovelaceToAda w.lovelace
  let stakingRewards ← lovelaceToAda w.rewards_lovelace
  let tokens ← w.tokens.mapM (fun t => do
    let amount ← formatTokenAmount t.quantity t.decimals
    pure ({ name := if t.name == "" then t.hex_asset_name else t.name
            ticker := t.ticker
            amount := amount } : ToolToken))
  pure { ada_balance := adaBalance
         staking_rewards := stakingRewards
         tokens := tokens
         handles := w.handles }

/-- JavaScript `String.prototype.trim`: strip leading and trailing
whitespace characters. -/
def jsTrim (s : String) : String :=
  String.mk (((s.data.dropWhile Char.isWhitespace).reverse.dropWhile Char.isWhitespace).reverse)

/-- JavaScript `String.prototype.startsWith`. -/
def jsStartsWith (s pat : String) : Bool :=
  pat.data.isPrefixOf s.data

/-- `isValidCardanoAddress` from `src/utils/validation.ts`
(lines 30-48). The input is any JavaScript value (`none` models
`undefined`); the source rejects non-strings first, then trims, then
checks the minimum length of 50 and the `addr1` / `addr_test1`
mainnet and testnet markers at the start of the trimmed string. -/
def isValidCardanoAddress (address : Option Json) : Bool :=
  match address with
  | some (Json.str s) =>
      let trimmed := jsTrim s
      if trimmed.length < 50 then false
      else if !(jsStartsWith trimmed "addr1") && !(jsStartsWith trimmed "addr_test1") then false
      else true
  | _ => false

/-- A wallet-detail body whose `tokens` array contains a `null`
element: well-formed JSON that the legacy coercion cannot process. -/
def badTokensBody : Json :=
  Json.obj [("lovelace", Json.str "1"), ("rewards_lovelace", Json.str "0"),
            ("handles", Json.arr []), ("tokens", Json.arr [Json.null])]

/-- The validated wallet-detail response of the worked example in the
specification (the jest fixture `mockWalletResponse` of the repository). -/
def exampleWalletDetailed : WalletDetailedResponse :=
  { lovelace := "5000000000", rewards_lovelace := "100000000",
    handles := [Json.str "$myhandle"],
    tokens := [{ policy := "abc123", hex_asset_name := "546f6b656e", name := "TestToken",
                 ticker := some "TEST", quantity := "1000000", decimals := 6 }] }

/-- A retryable failure: the `VesprApiError` built for an HTTP 503
response. -/
def err503 : JsErr :=
  JsErr.vesprApiError "VESPR API is temporarily unavailable. Try again later." (some 503) false

/-- A terminal failure: the `VesprApiError` built for an HTTP 400
response. -/
def err400 : JsErr :=
  JsErr.vesprApiError "Invalid wallet address format." (some 400) false

/-- A concrete validated spot-price response, as fetched by a first USD
lookup. -/
def usdSpot1 : AdaSpotPriceResponse :=
  { currency := "usd", spot := "0.45", spot1hAgo := none, spot24hAgo := none }

/-- A concrete validated spot-price response the transport would return
for a second USD fetch, were one issued. -/
def usdSpot2 : AdaSpotPriceResponse :=
  { currency := "usd", spot := "0.46", spot1hAgo := none, spot24hAgo := none }

/-- Shifting a run of exponential backoff delays: the delay of the
current attempt followed by the delays of the next `k` attempts is the
run of `k + 1` delays starting at the current attempt. -/
theorem backoff_cons (base attempt k : Nat) :
    base * 2 ^ attempt :: (List.range k).map (fun i => base * 2 ^ (attempt + 1 + i)) =
      (List.range (k + 1)).map (fun i => base * 2 ^ (attempt + i)) := by
  rw [List.range_succ_eq_map, List.map_cons, List.map_map, Nat.add_zero]
  congr 1
  congr 1
  funext i
  simp only [Function.comp_apply]
  rw [show attempt + Nat.succ i = attempt + 1 + i by omega]

/-- When the first outcome handed to the loop fails and is retryable
and more than one iteration remains, the loop records one invocation
and the backoff delay for this attempt index and continues. -/
theorem withRetryGo_retry_step {α : Type} (base : Nat) (outcomes : Nat → Except JsErr α)
    (r attempt : Nat) (lastError : Option JsErr) (invs : Nat) (delays : List Nat)
    (e : JsErr) (hout : outcomes attempt = Except.error e)
    (hretry : isRetryableError e = true) (hr : r ≠ 0) :
    withRetryGo base outcomes (r + 1) attempt lastError invs delays =
      withRetryGo base outcomes r (attempt + 1) (some e) (invs + 1)
        (delays ++ [base * 2 ^ attempt]) := by
  simp [withRetryGo, hout, hretry, hr]

/-- A run whose first `k` outcomes are retryable failures and whose
next outcome is a success returns that success after `k + 1`
invocations, having waited the exponential backoff delay at each of the
first `k` attempt indices. -/
theorem withRetryGo_ok_after {α : Type} (base : Nat) (outcomes : Nat → Except JsErr α)
    (v : α) :
    ∀ (k r attempt : Nat) (lastError : Option JsErr) (invs : Nat) (delays : List Nat),
      k < r →
      (∀ i, i < k → ∃ e, outcomes (attempt + i) = Except.error e ∧ isRetryableError e = true) →
      outcomes (attempt + k) = Except.ok v →
      withRetryGo base outcomes r attempt lastError invs delays =
        { result := Except.ok v
          invocations := invs + (k + 1)
          delays := delays ++ (List.range k).map (fun i => base * 2 ^ (attempt + i)) } := by
  intro k
  induction k with
  | zero =>
      intro r attempt lastError invs delays hkr _ hok
      obtain ⟨r', rfl⟩ : ∃ r', r = r' + 1 := ⟨r - 1, by omega⟩
      simp only [Nat.add_zero] at hok
      simp [withRetryGo, hok]
  | succ k ih =>
      intro r attempt lastError invs delays hkr hfail hok
      obtain ⟨r', rfl⟩ : ∃ r', r = r' + 1 := ⟨r - 1, by omega⟩
      obtain ⟨e, he, heRetry⟩ := hfail 0 (Nat.succ_pos k)
      rw [Nat.add_zero] at he
      rw [withRetryGo_retry_step base outcomes r' attempt lastError invs delays e he heRetry
        (by omega)]
      rw [ih r' (attempt + 1) (some e) (invs + 1) (delays ++ [base * 2 ^ attempt])
        (by omega)
        (fun i hi => by
          obtain ⟨e', he', hr'⟩ := hfail (i + 1) (by omega)
          exact ⟨e', by rw [show attempt + 1 + i = attempt + (i + 1) by omega]; exact he', hr'⟩)
        (by rw [show attempt + 1 + k = attempt + (k + 1) by omega]; exact hok)]
      congr 1
      · omega
      · rw [List.append_assoc, List.singleton_append, backoff_cons]

/-- A run all of whose `r` allowed outcomes are retryable failures
throws the error of the final attempt verbatim after `r`
invocations. -/
theorem withRetryGo_all_retryable {α : Type} (base : Nat) (outcomes : Nat → Except JsErr α) :
    ∀ (r : Nat), 1 ≤ r →
      ∀ (attempt : Nat) (lastError : Option JsErr) (invs : Nat) (delays : List Nat),
      (∀ i, i < r → ∃ e, outcomes (attempt + i) = Except.error e ∧ isRetryableError e = true) →
      ∃ e, outcomes (attempt + (r - 1)) = Except.error e ∧
        (withRetryGo base outcomes r attempt lastError invs delays).result =
          Except.error (Thrown.err e) ∧
        (withRetryGo base outcomes r attempt lastError invs delays).invocations = invs + r := by
  intro r
  induction r with
  | zero => intro h; omega
  | succ r ih =>
      intro _ attempt lastError invs delays hfail
      by_cases hr : r = 0
      · subst hr
        obtain ⟨e, he, heRetry⟩ := hfail 0 Nat.one_pos
        rw [Nat.add_zero] at he
        refine ⟨e, by simpa using he, ?_, ?_⟩ <;> simp [withRetryGo, he]
      · obtain ⟨e, he, heRetry⟩ := hfail 0 (Nat.succ_pos r)
        rw [Nat.add_zero] at he
        rw [withRetryGo_retry_step base outcomes r attempt lastError invs delays e he heRetry hr]
        obtain ⟨e', he', hres, hinv⟩ :=
          ih (by omega) (attempt + 1) (some e) (invs + 1) (delays ++ [base * 2 ^ attempt])
            (fun i hi => by
              obtain ⟨e', he', hr'⟩ := hfail (i + 1) (by omega)
              exact ⟨e', by rw [show attempt + 1 + i = attempt + (i + 1) by omega]; exact he', hr'⟩)
        refine ⟨e', ?_, hres, by omega⟩
        rw [show attempt + (r + 1 - 1) = attempt + 1 + (r - 1) by omega]
        exact he'

/-- The configured retry count is always at least one: the config
fallback maps an unset, non-numeric or zero `MAX_RETRIES` setting to
the default of three. -/
theorem configuredMaxRetries_pos (envMaxRetries : Option Nat) :
    1 ≤ configuredMaxRetries envMaxRetries := by
  rcases envMaxRetries with _ | n
  · simp [configuredMaxRetries]
  · by_cases h : n = 0
    · simp [configuredMaxRetries, h]
    · simp [configuredMaxRetries, h]
      omega

/-- A non-retryable failure of the first attempt is rethrown after
exactly one invocation, with no backoff, for any positive retry
budget. -/
theorem withRetry_first_terminal {α : Type} (maxRetries base : Nat)
    (outcomes : Nat → Except JsErr α) (e : JsErr) (hmr : 1 ≤ maxRetries)
    (h0 : outcomes 0 = Except.error e) (hterm : isRetryableError e = false) :
    withRetry maxRetries base outcomes =
      { result := Except.error (Thrown.err e), invocations := 1, delays := [] } := by
  obtain ⟨r, rfl⟩ : ∃ r, maxRetries = r + 1 := ⟨maxRetries - 1, by omega⟩
  simp [withRetry, withRetryGo, h0, hterm]

/-- Directly after `cacheSet`, looking the key up finds the entry just
inserted. -/
theorem find?_cacheSet_self (entries : List CacheEntry) (k : String)
    (v : AdaSpotPriceResponse) (now : Nat) :
    (cacheSet entries k v now).find? (fun e => e.key == k) =
      some { key := k, value := v, insertedAt := now } := by
  unfold cacheSet
  rw [show spotPriceCacheMax = 99 + 1 from rfl, List.take_succ_cons]
  exact List.find?_cons_of_pos _ (by simp)

/-- The delays any run records form a contiguous run of exponential
backoff values starting at the initial attempt index. -/
theorem withRetryGo_delays_shape {α : Type} (base : Nat) (outcomes : Nat → Except JsErr α) :
    ∀ (r attempt : Nat) (lastError : Option JsErr) (invs : Nat) (delays : List Nat),
      ∃ m, (withRetryGo base outcomes r attempt lastError invs delays).delays =
        delays ++ (List.range m).map (fun i => base * 2 ^ (attempt + i)) := by
  intro r
  induction r with
  | zero => intro attempt lastError invs delays; exact ⟨0, by simp [withRetryGo]⟩
  | succ r ih =>
      intro attempt lastError invs delays
      rcases hout : outcomes attempt with e | v
      · rcases hR : isRetryableError e
        · exact ⟨0, by simp [withRetryGo, hout, hR]⟩
        · match r, ih with
          | 0, _ => exact ⟨0, by simp [withRetryGo, hout, hR]⟩
          | r + 1, ih =>
              rw [withRetryGo_retry_step base outcomes (r + 1) attempt lastError invs delays
                e hout hR (by omega)]
              obtain ⟨m, hm⟩ :=
                ih (attempt + 1) (some e) (invs + 1) (delays ++ [base * 2 ^ attempt])
              exact ⟨m + 1, by
                rw [hm, List.append_assoc, List.singleton_append, backoff_cons]⟩
      · exact ⟨0, by simp [withRetryGo, hout]⟩

/-- Claim C1: every outcome of the wallet-detail or spot-price pipeline
reaches the caller as a validated response or a `VesprApiError`, never
another exception kind such as a raw `TypeError` from coercing a
malformed `tokens` array. The legacy client violates this: evaluated on
an HTTP 200 response whose parsed body has `tokens: [null]`, the
coercion inside `fetchWalletDetailedOnce` raises a raw `TypeError`,
which `withRetry` classifies as non-retryable and rethrows verbatim to
the caller after a single invocation. -/
theorem claimC1_raw_type_error_escapes :
    fetchWalletDetailedOnce (TransportOutcome.okJson badTokensBody) =
      Except.error (JsErr.typeError "Cannot read properties of null") ∧
    (withRetry 3 1000
        (fun _ => fetchWalletDetailedOnce (TransportOutcome.okJson badTokensBody))).result =
      Except.error (Thrown.err (JsErr.typeError "Cannot read properties of null")) ∧
    (withRetry 3 1000
        (fun _ => fetchWalletDetailedOnce (TransportOutcome.okJson badTokensBody))).invocations =
      1 :=
  ⟨rfl, rfl, rfl⟩

/-- Claim C2: a failure is classified retryable exactly when it is a
`VesprApiError` carrying a status with `status ≥ 500` or
`status = 429`; every other failure of the first attempt is rethrown to
the caller after exactly one transport invocation, for every configured
retry count. -/
theorem claimC2_retryable_classification :
    (∀ e : JsErr, isRetryableError e = true ↔
      ∃ msg s hasCause, e = JsErr.vesprApiError msg (some s) hasCause ∧
        (500 ≤ s ∨ s = 429)) ∧
    (∀ (α : Type) (envMaxRetries : Option Nat) (base : Nat)
        (outcomes : Nat → Except JsErr α) (e : JsErr),
      outcomes 0 = Except.error e →
      isRetryableError e = false →
      (withRetry (configuredMaxRetries envMaxRetries) base outcomes).result =
          Except.error (Thrown.err e) ∧
      (withRetry (configuredMaxRetries envMaxRetries) base outcomes).invocations = 1) := by
  constructor
  · intro e
    constructor
    · intro h
      rcases e with ⟨msg, sc, hasCause⟩ | m
      · rcases sc with _ | s
        · simp [isRetryableError] at h
        · simp only [isRetryableError, Bool.and_eq_true, bne_iff_ne, Bool.or_eq_true,
            decide_eq_true_eq, beq_iff_eq] at h
          exact ⟨msg, s, hasCause, rfl, h.2⟩
      · simp [isRetryableError] at h
    · rintro ⟨msg, s, hasCause, rfl, hs⟩
      simp only [isRetryableError, Bool.and_eq_true, bne_iff_ne, Bool.or_eq_true,
        decide_eq_true_eq, beq_iff_eq]
      exact ⟨by omega, hs⟩
  · intro α envMaxRetries base outcomes e h0 hterm
    rw [withRetry_first_terminal (configuredMaxRetries envMaxRetries) base outcomes e
      (configuredMaxRetries_pos envMaxRetries) h0 hterm]
    exact ⟨rfl, rfl⟩

/-- Witness for claim C2: a first-attempt HTTP 400 failure under the
default configuration is rethrown after exactly one invocation. -/
theorem claimC2_witness :
    (withRetry (configuredMaxRetries none) 1000
        (fun _ => (Except.error err400 : Except JsErr Nat))).result =
      Except.error (Thrown.err err400) ∧
    (withRetry (configuredMaxRetries none) 1000
        (fun _ => (Except.error err400 : Except JsErr Nat))).invocations = 1 :=
  claimC2_retryable_classification.2 Nat none 1000
    (fun _ => (Except.error err400 : Except JsErr Nat)) err400 rfl rfl

/-- Claim C3 (counterexample): the claim asserts that a wallet-detail
body missing the rewards field passes validation with the default
substituted, but `WalletDetailedResponseSchema` is strict: the parse of
a body carrying only `lovelace`, `handles` and `tokens` fails instead
of defaulting `rewards_lovelace`. -/
theorem claimC3_counterexample :
    walletDetailedSafeParse
      (Json.obj [("lovelace", Json.str "1"), ("handles", Json.arr []),
                 ("tokens", Json.arr [])]) = none := rfl

/-- Claim C3 (amended): under the legacy coercion of
`fetchWalletDetailedOnce`, a parsed body with the rewards, handles and
tokens fields absent succeeds with the defaults `"0"`, empty and empty
substituted, and a token whose ticker is `null` keeps `ticker = null`;
under the zod `WalletDetailedResponseSchema` those fields are required,
so a body with the rewards field absent fails validation instead. -/
theorem claimC3_amended_defaults :
    (∀ fields : List (String × Json),
      fields.lookup "rewards_lovelace" = none →
      fields.lookup "handles" = none →
      fields.lookup "tokens" = none →
      coerceWalletDetailed (Json.obj fields) =
        Except.ok { lovelace := nullishCoalesceString (fields.lookup "lovelace") "0",
                    rewards_lovelace := "0", handles := [], tokens := [] }) ∧
    (∀ tfields : List (String × Json),
      tfields.lookup "ticker" = some Json.null →
      ∃ tk, coerceToken (Json.obj tfields) = Except.ok tk ∧ tk.ticker = none) ∧
    (∀ fields : List (String × Json),
      fields.lookup "rewards_lovelace" = none →
      walletDetailedSafeParse (Json.obj fields) = none) := by
  refine ⟨?_, ?_, ?_⟩
  · intro fields h1 h2 h3
    simp [coerceWalletDetailed, getProp, h1, h2, h3, nullishCoalesceString]
  · intro tfields h
    refine ⟨_, rfl, ?_⟩
    simp [coerceToken, getProp, h]
  · intro fields h
    simp only [walletDetailedSafeParse, h]
    rcases expectString (fields.lookup "lovelace") with _ | s <;>
      rcases expectStringArray (fields.lookup "handles") with _ | hs <;>
        rcases tokensArraySafeParse (fields.lookup "tokens") with _ | ts <;> rfl

/-- Witness for claim C3 (amended): evaluated on concrete bodies, the
legacy coercion defaults the absent fields and preserves a `null`
ticker, and the zod schema rejects the absent rewards field. -/
theorem claimC3_amended_witness :
    coerceWalletDetailed (Json.obj [("lovelace", Json.str "1")]) =
      Except.ok { lovelace := nullishCoalesceString ([("lovelace", Json.str "1")].lookup "lovelace") "0",
                  rewards_lovelace := "0", handles := [], tokens := [] } ∧
    (∃ tk, coerceToken (Json.obj [("ticker", Json.null)]) = Except.ok tk ∧ tk.ticker = none) ∧
    walletDetailedSafeParse (Json.obj [("lovelace", Json.str "1")]) = none :=
  ⟨claimC3_amended_defaults.1 [("lovelace", Json.str "1")] rfl rfl rfl,
   claimC3_amended_defaults.2.1 [("ticker", Json.null)] rfl,
   claimC3_amended_defaults.2.2 [("lovelace", Json.str "1")] rfl⟩

/-- Claim C4: a run of `k` retryable failures followed by a success,
with `k + 1 ≤ maxRetries`, returns that success after exactly `1 + k`
transport invocations. -/
theorem claimC4_failures_then_success :
    ∀ (α : Type) (maxRetries base k : Nat) (outcomes : Nat → Except JsErr α) (v : α),
      k + 1 ≤ maxRetries →
      (∀ i, i < k → ∃ e, outcomes i = Except.error e ∧ isRetryableError e = true) →
      outcomes k = Except.ok v →
      (withRetry maxRetries base outcomes).result = Except.ok v ∧
      (withRetry maxRetries base outcomes).invocations = 1 + k := by
  intro α maxRetries base k outcomes v hk hfail hok
  rw [withRetry, withRetryGo_ok_after base outcomes v k maxRetries 0 none 0 []
    (by omega) (fun i hi => by simpa using hfail i hi) (by simpa using hok)]
  exact ⟨rfl, by show 0 + (k + 1) = 1 + k; omega⟩

/-- Witness for claim C4: a single 503 failure followed by a success
under `maxRetries = 3` returns the success after two invocations. -/
theorem claimC4_witness :
    (withRetry 3 1000
        (fun i => if i == 0 then (Except.error err503 : Except JsErr Nat)
                  else Except.ok 42)).result = Except.ok 42 ∧
    (withRetry 3 1000
        (fun i => if i == 0 then (Except.error err503 : Except JsErr Nat)
                  else Except.ok 42)).invocations = 1 + 1 :=
  claimC4_failures_then_success Nat 3 1000 1
    (fun i => if i == 0 then (Except.error err503 : Except JsErr Nat) else Except.ok 42) 42
    (by omega)
    (fun i hi => by
      have hi0 : i = 0 := by omega
      subst hi0
      exact ⟨err503, rfl, by decide⟩)
    rfl

/-- Claim C5: when every one of `maxRetries ≥ 1` attempts fails with a
retryable error, the call throws the error of the final attempt
verbatim, after exactly `maxRetries` transport invocations. -/
theorem claimC5_exhausted_retries :
    ∀ (α : Type) (maxRetries base : Nat) (outcomes : Nat → Except JsErr α),
      1 ≤ maxRetries →
      (∀ i, i < maxRetries → ∃ e, outcomes i = Except.error e ∧ isRetryableError e = true) →
      ∃ e, outcomes (maxRetries - 1) = Except.error e ∧
        (withRetry maxRetries base outcomes).result = Except.error (Thrown.err e) ∧
        (withRetry maxRetries base outcomes).invocations = maxRetries := by
  intro α maxRetries base outcomes hmr hfail
  obtain ⟨e, he, hres, hinv⟩ := withRetryGo_all_retryable base outcomes maxRetries hmr 0 none 0 []
    (fun i hi => by simpa using hfail i hi)
  exact ⟨e, by simpa using he, hres, by simpa using hinv⟩

/-- Witness for claim C5: two consecutive 503 failures under
`maxRetries = 2` rethrow the final error after two invocations. -/
theorem claimC5_witness :
    ∃ e, (fun _ => (Except.error err503 : Except JsErr Nat)) (2 - 1) = Except.error e ∧
      (withRetry 2 1000 (fun _ => (Except.error err503 : Except JsErr Nat))).result =
        Except.error (Thrown.err e) ∧
      (withRetry 2 1000 (fun _ => (Except.error err503 : Except JsErr Nat))).invocations = 2 :=
  claimC5_exhausted_retries Nat 2 1000 (fun _ => (Except.error err503 : Except JsErr Nat))
    (by omega) (fun i _ => ⟨err503, rfl, by decide⟩)

/-- Claim C6 (counterexample): the claim asserts that `maxRetries = 0`
still executes the wrapped operation once and hands its result to the
caller, but `withRetry` with `maxRetries = 0` never enters the loop:
the always-succeeding operation is invoked zero times and the bare
value `undefined` is thrown instead. -/
theorem claimC6_counterexample :
    (withRetry 0 1000 (fun _ => (Except.ok 0 : Except JsErr Nat))).invocations = 0 ∧
    (withRetry 0 1000 (fun _ => (Except.ok 0 : Except JsErr Nat))).result =
      Except.error Thrown.undef :=
  ⟨rfl, rfl⟩

/-- Claim C6 (amended): with `maxRetries = 1` the wrapped operation is
executed exactly once and never retried, and its result or error
reaches the caller verbatim; with `maxRetries = 0` the operation is
never invoked and the call throws `undefined`. -/
theorem claimC6_amended_single_attempt :
    ∀ (α : Type) (base : Nat) (outcomes : Nat → Except JsErr α),
      ((withRetry 1 base outcomes).invocations = 1 ∧
       (withRetry 1 base outcomes).delays = [] ∧
       (withRetry 1 base outcomes).result =
         (match outcomes 0 with
          | Except.ok v => Except.ok v
          | Except.error e => Except.error (Thrown.err e))) ∧
      ((withRetry 0 base outcomes).invocations = 0 ∧
       (withRetry 0 base outcomes).result = Except.error Thrown.undef) := by
  intro α base outcomes
  refine ⟨⟨?_, ?_, ?_⟩, rfl, rfl⟩ <;>
    rcases hout : outcomes 0 with e | v <;> simp [withRetry, withRetryGo, hout]

/-- Claim C7: a spot-price lookup for a currency not yet cached invokes
the transport pipeline once; a second lookup for the same currency
within the 10-minute time-to-live invokes it zero further times and
returns the cached validated response; a lookup for the reference
currency ADA returns the constant result, leaving the cache untouched
and invoking no transport. -/
theorem claimC7_spot_price_cache :
    (∀ (currency : String) (cache : List CacheEntry) (now1 now2 : Nat)
        (f1 f2 : AdaSpotPriceResponse),
      currency ≠ "ADA" →
      cache.find? (fun e => e.key == currency) = none →
      now2 - now1 ≤ spotPriceCacheTtl →
      (getAdaSpotPrice currency cache now1 f1).transportCalls = 1 ∧
      (getAdaSpotPrice currency (getAdaSpotPrice currency cache now1 f1).cache
          now2 f2).transportCalls = 0 ∧
      (getAdaSpotPrice currency (getAdaSpotPrice currency cache now1 f1).cache
          now2 f2).value = (getAdaSpotPrice currency cache now1 f1).value) ∧
    (∀ (cache : List CacheEntry) (now : Nat) (f : AdaSpotPriceResponse),
      getAdaSpotPrice "ADA" cache now f =
        { value := adaSpotPriceConst, cache := cache, transportCalls := 0 }) := by
  constructor
  · intro currency cache now1 now2 f1 f2 hne hfind httl
    have hbeq : (currency == "ADA") = false := by
      simp [hne]
    have h1 : getAdaSpotPrice currency cache now1 f1 =
        { value := f1, cache := cacheSet cache currency f1 now1, transportCalls := 1 } := by
      simp [getAdaSpotPrice, hbeq, cacheGet, hfind]
    have h2 : getAdaSpotPrice currency (cacheSet cache currency f1 now1) now2 f2 =
        { value := f1,
          cache := ({ key := currency, value := f1, insertedAt := now1 } : CacheEntry)
            :: (cacheSet cache currency f1 now1).filter (fun x => !(x.key == currency)),
          transportCalls := 0 } := by
      simp [getAdaSpotPrice, hbeq, cacheGet,
        find?_cacheSet_self cache currency f1 now1, httl]
    rw [h1]
    rw [h2]
    exact ⟨rfl, rfl, rfl⟩
  · intro cache now f
    simp [getAdaSpotPrice]

/-- Witness for claim C7: a cold USD lookup at time 0 followed by a
second USD lookup one minute later fetches once and then serves the
cached response. -/
theorem claimC7_witness :
    (getAdaSpotPrice "usd" [] 0 usdSpot1).transportCalls = 1 ∧
    (getAdaSpotPrice "usd" (getAdaSpotPrice "usd" [] 0 usdSpot1).cache
        60000 usdSpot2).transportCalls = 0 ∧
    (getAdaSpotPrice "usd" (getAdaSpotPrice "usd" [] 0 usdSpot1).cache
        60000 usdSpot2).value = (getAdaSpotPrice "usd" [] 0 usdSpot1).value :=
  claimC7_spot_price_cache.1 "usd" [] 0 60000 usdSpot1 usdSpot2
    (by decide) rfl (by decide)

/-- Claim C8: every delay the retry loop waits is exactly
`retryBaseDelayMs * 2 ^ attemptIndex` for consecutive zero-based
attempt indices, with no jitter: the recorded delay list is always an
initial run of the pure exponential backoff sequence. -/
theorem claimC8_exponential_backoff :
    ∀ (α : Type) (maxRetries base : Nat) (outcomes : Nat → Except JsErr α),
      (withRetry maxRetries base outcomes).delays =
        (List.range (withRetry maxRetries base outcomes).delays.length).map
          (fun i => base * 2 ^ i) := by
  intro α maxRetries base outcomes
  obtain ⟨m, hm⟩ := withRetryGo_delays_shape base outcomes maxRetries 0 none 0 []
  have hm' : (withRetry maxRetries base outcomes).delays =
      (List.range m).map (fun i => base * 2 ^ i) := by
    rw [withRetry, hm]
    simp
  rw [hm']
  simp

/-- Claim C9: the worked example: a validated wallet-detail response
with 5,000,000,000 lovelace, 100,000,000 reward lovelace, one handle
and one token of quantity 1,000,000 at 6 decimals renders as
ada_balance "5000.000000", staking_rewards "100.000000" and a single
token amount "1.000000" in the tool output. -/
theorem claimC9_worked_example :
    buildWalletOutput exampleWalletDetailed =
      some { ada_balance := "5000.000000", staking_rewards := "100.000000",
             tokens := [{ name := "TestToken", ticker := some "TEST",
                          amount := "1.000000" }],
             handles := [Json.str "$myhandle"] } := rfl

/-- Claim C10: the address check accepts exactly the string inputs
whose trimmed form has length at least 50 and starts with the mainnet
or testnet marker; an address surrounded by whitespace is accepted, and
non-string inputs return false rather than throwing. -/
theorem claimC10_address_validation :
    (∀ v : Option Json, isValidCardanoAddress v = true ↔
      ∃ s, v = some (Json.str s) ∧ 50 ≤ (jsTrim s).length ∧
        (jsStartsWith (jsTrim s) "addr1" = true ∨
         jsStartsWith (jsTrim s) "addr_test1" = true)) ∧
    isValidCardanoAddress (some (Json.str
      "  addr1qy8ac7qqy0vtulyl7wntmsxc6wex80gvcyjy33qffrhm7sh927ysx5sftuw0dlft05dz3c7revpf7jx0xnlcjz3g69mq4afdhv  ")) =
      true ∧
    isValidCardanoAddress none = false ∧
    isValidCardanoAddress (some (Json.num 123)) = false ∧
    isValidCardanoAddress (some Json.null) = false := by
  refine ⟨?_, by decide, rfl, rfl, rfl⟩
  intro v
  constructor
  · intro h
    rcases v with _ | j
    · simp [isValidCardanoAddress] at h
    · rcases j with _ | b | n | s | elems | fields
      · simp [isValidCardanoAddress] at h
      · simp [isValidCardanoAddress] at h
      · simp [isValidCardanoAddress] at h
      · refine ⟨s, rfl, ?_⟩
        by_cases h1 : (jsTrim s).length < 50
        · simp [isValidCardanoAddress, h1] at h
        · rcases ha : jsStartsWith (jsTrim s) "addr1"
          · rcases hb : jsStartsWith (jsTrim s) "addr_test1"
            · simp [isValidCardanoAddress, h1, ha, hb] at h
            · exact ⟨by omega, Or.inr rfl⟩
          · exact ⟨by omega, Or.inl rfl⟩
      · simp [isValidCardanoAddress] at h
      · simp [isValidCardanoAddress] at h
  · rintro ⟨s, rfl, hlen, hsw⟩
    simp only [isValidCardanoAddress]
    rw [if_neg (by omega)]
    rcases hsw with h | h <;> simp [h]
